import Mathlib

/-!
Verification development for the `bzs.sqlfs` serialized filesystem facade
(`bzs/sqlfs/__init__.py`).

The facade functions (`create_file`, `move`, `remove`, `get_content`,
`list_directory`, `get_file_name`, the permission probes, …) are translated
directly from the source.  The collaborators they delegate to — the tree
engine (`file_system.Filesystem`), the permission engine
(`file_system_permissions.FilesystemPermissions`) and the stream module
(`file_stream`) — are not part of the source tree here, so they are
modelled from the specification (sections 3, 4.1–4.3 and 6 of the design
document), as noted in the doc comment of each such definition.
-/

/-- Modelled from the spec: the per-user permission triple
`(read, write, propagate)` carried on each node ("effect sub_files"
gating whether a write grant extends beneath the node). -/
structure Perm where
  read : Bool
  write : Bool
  propagate : Bool
deriving DecidableEq, Repr

/-- Modelled from the spec: a user with no explicit entry on a node is
denied by default. -/
def lookupPerm (ps : List (String × Perm)) (h : String) : Perm :=
  match ps.find? (fun q => q.1 == h) with
  | some q => q.2
  | none => ⟨false, false, false⟩

/-- Modelled from the spec: the metadata of one filesystem node
(§3 "Node"): name, directory flag, owner handle, size, upload time,
content reference and the per-user permission mapping. -/
structure NodeData where
  name : String
  isDir : Bool
  owner : String
  fileSize : Nat
  uploadTime : Nat
  contentRef : Option Nat
  perms : List (String × Perm)
deriving DecidableEq, Repr

/-- Modelled from the spec: the node graph is a tree; each node carries
its metadata and the list of its children. -/
inductive FTree where
  | mk (data : NodeData) (children : List FTree)

def FTree.dataOf : FTree → NodeData
  | .mk d _ => d

def FTree.childrenOf : FTree → List FTree
  | .mk _ c => c

def FTree.nameOf (t : FTree) : String := t.dataOf.name

/-- A user capability object; the facade only ever reads its `handle`
(string identity), per §6 of the spec. -/
structure User where
  handle : String
deriving DecidableEq, Repr

/-- Modelled from the spec: a `file_stream.FileStream` handle (§3
"FileStream"): pure allocation data, decoupled from the tree. The
`file_stream` module is not in the source tree. -/
structure FileStream where
  mode : String
  est_length : Nat
  obj_oid : Nat
  obj_data : List Nat
deriving DecidableEq, Repr

/-- Python's `str.split('/')` on the character list of the string:
splits at every `'/'`, keeping empty segments (`''.split('/') == ['']`,
`'/'.split('/') == ['', '']`). -/
def pySplitSlash : List Char → List String
  | [] => [""]
  | c :: rest =>
    let r := pySplitSlash rest
    if c = '/' then "" :: r
    else
      match r with
      | s :: ss => String.mk (c :: s.data) :: ss
      | [] => [String.mk [c]]

/-- Python's `path.split('/')`. -/
def pySplit (p : String) : List String :=
  pySplitSlash p.data

/-- Modelled from the spec: paths are slash-delimited strings naming a
root-relative walk through node names (§6); empty segments are skipped,
so "/", "" and "//" all address the root. -/
def parsePath (p : String) : List String :=
  (pySplit p).filter (fun seg => seg ≠ "")

/-- First child carrying the given name (sibling names are unique). -/
def findChild : List FTree → String → Option FTree
  | [], _ => none
  | c :: cs, n => if c.nameOf == n then some c else findChild cs n

/-- Walk a segment list down from a node. -/
def resolve (t : FTree) : List String → Option FTree
  | [] => some t
  | n :: rest =>
    match findChild t.childrenOf n with
    | some c => resolve c rest
    | none => none

/-- Modelled from the spec: `readable` (§4.2) — the user needs
`read = true` on the node and on every ancestor up to the root; an
unresolvable path is denied. -/
def permReadable (t : FTree) (path : List String) (h : String) : Bool :=
  (lookupPerm t.dataOf.perms h).read &&
    match path with
    | [] => true
    | n :: rest =>
      match findChild t.childrenOf n with
      | some c => permReadable c rest h
      | none => false

/-- Modelled from the spec: helper for `writable_self` (§4.2) — walk the
path carrying the parent's `propagate` bit; at the target the node's own
`write` bit and the carried bit must both hold.  The root carries a
vacuously true parent bit. -/
def writableSelfAux (parentProp : Bool) (t : FTree) (path : List String) (h : String) : Bool :=
  match path with
  | [] => (lookupPerm t.dataOf.perms h).write && parentProp
  | n :: rest =>
    match findChild t.childrenOf n with
    | some c => writableSelfAux (lookupPerm t.dataOf.perms h).propagate c rest h
    | none => false

/-- `writable_self` on an already-parsed segment list. -/
def writable_self_on (t : FTree) (segs : List String) (h : String) : Bool :=
  writableSelfAux true t segs h

mutual

/-- Modelled from the spec: `writable_self` holding at this node (given
its parent's propagate bit) and recursively at every descendant. -/
def subtreeAllWS (parentProp : Bool) (t : FTree) (h : String) : Bool :=
  match t with
  | .mk d ch =>
    ((lookupPerm d.perms h).write && parentProp) &&
      subtreeAllWSList (lookupPerm d.perms h).propagate ch h

def subtreeAllWSList (pp : Bool) (ts : List FTree) (h : String) : Bool :=
  match ts with
  | [] => true
  | c :: cs => subtreeAllWS pp c h && subtreeAllWSList pp cs h

end

/-- Modelled from the spec: helper for `writable_all` (§4.2) — walk to
the target carrying the parent propagate bit, then require
`writable_self` on the whole subtree. -/
def writableAllAux (parentProp : Bool) (t : FTree) (path : List String) (h : String) : Bool :=
  match path with
  | [] => subtreeAllWS parentProp t h
  | n :: rest =>
    match findChild t.childrenOf n with
    | some c => writableAllAux (lookupPerm t.dataOf.perms h).propagate c rest h
    | none => false

namespace FilesystemPermissions

/-- Modelled from the spec: `FilesystemPermissions.readable(path, user)`. -/
def readable (t : FTree) (path : String) (h : String) : Bool :=
  permReadable t (parsePath path) h

/-- Modelled from the spec: `readable(name, user, parent=path)` — the
variant the facade's `list_directory` uses, checking the child `name`
below the directory `parent`. -/
def readable_parent (t : FTree) (name : String) (h : String) (parent : String) : Bool :=
  permReadable t (parsePath parent ++ [name]) h

/-- Modelled from the spec: `writable` (§4.2) — the node itself grants
`write` and `propagate`, so entries may be created or removed under it. -/
def writable (t : FTree) (path : String) (h : String) : Bool :=
  match resolve t (parsePath path) with
  | some n => (lookupPerm n.dataOf.perms h).write && (lookupPerm n.dataOf.perms h).propagate
  | none => false

/-- Modelled from the spec: `writable_self` (§4.2) — the node grants
`write` and its immediate parent grants `propagate`. -/
def writable_self (t : FTree) (path : String) (h : String) : Bool :=
  writable_self_on t (parsePath path) h

/-- Modelled from the spec: `writable_self(name, user, parent=path)` as
used by `list_directory`. -/
def writable_self_parent (t : FTree) (name : String) (h : String) (parent : String) : Bool :=
  writableSelfAux true t (parsePath parent ++ [name]) h

/-- Modelled from the spec: `writable_all` (§4.2) — `writable_self` on
the node and on every descendant, recursively. -/
def writable_all (t : FTree) (path : String) (h : String) : Bool :=
  writableAllAux true t (parsePath path) h

/-- Modelled from the spec: conjunction used by `rename`. -/
def read_writable (t : FTree) (path : String) (h : String) : Bool :=
  readable t path h && writable t path h

/-- Modelled from the spec: conjunction used by `change_ownership` and
`change_permissions`. -/
def read_writable_all (t : FTree) (path : String) (h : String) : Bool :=
  readable t path h && writable_all t path h

end FilesystemPermissions

mutual

/-- Modelled from the spec: locate the node addressed by the segment
list and replace it by `f`'s result; fails (returning `none`, tree
untouched) if the path does not resolve or `f` fails. -/
def modifyAtO (t : FTree) (path : List String) (f : FTree → Option FTree) : Option FTree :=
  match path with
  | [] => f t
  | n :: rest =>
    match t with
    | .mk d ch =>
      match modChild ch n rest f with
      | some ch' => some (FTree.mk d ch')
      | none => none

def modChild (ch : List FTree) (n : String) (rest : List String) (f : FTree → Option FTree) : Option (List FTree) :=
  match ch with
  | [] => none
  | c :: cs =>
    if c.nameOf == n then
      match modifyAtO c rest f with
      | some c' => some (c' :: cs)
      | none => none
    else
      match modChild cs n rest f with
      | some cs' => some (c :: cs')
      | none => none

end

/-- Remove the first child carrying the given name; `none` if absent. -/
def removeChild (ch : List FTree) (n : String) : Option (List FTree) :=
  match ch with
  | [] => none
  | c :: cs =>
    if c.nameOf == n then some cs
    else
      match removeChild cs n with
      | some cs' => some (c :: cs')
      | none => none

/-- Rename the first child carrying the given name; `none` if absent. -/
def renameChild (ch : List FTree) (n : String) (new_name : String) : Option (List FTree) :=
  match ch with
  | [] => none
  | c :: cs =>
    if c.nameOf == n then
      match c with
      | .mk d cc => some (FTree.mk { d with name := new_name } cc :: cs)
    else
      match renameChild cs n new_name with
      | some cs' => some (c :: cs')
      | none => none

mutual

/-- Modelled from the spec: reassign the owner of a whole subtree
(used by `copy_reown` and `change_ownership`). -/
def setOwnerAll (t : FTree) (h : String) : FTree :=
  match t with
  | .mk d ch => FTree.mk { d with owner := h } (setOwnerAllList ch h)

def setOwnerAllList (ts : List FTree) (h : String) : List FTree :=
  match ts with
  | [] => []
  | c :: cs => setOwnerAll c h :: setOwnerAllList cs h

end

/-- Insert or overwrite one user's permission triple. -/
def upsertPerm (ps : List (String × Perm)) (q : String × Perm) : List (String × Perm) :=
  if ps.any (fun r => r.1 == q.1) then
    ps.map (fun r => if r.1 == q.1 then (r.1, q.2) else r)
  else ps ++ [q]

/-- Apply a batch of per-user permission updates to one mapping. -/
def updatePerms (ps upd : List (String × Perm)) : List (String × Perm) :=
  upd.foldl upsertPerm ps

/-- Set the given users' permission triples on one node only. -/
def setPermsNode (t : FTree) (upd : List (String × Perm)) : FTree :=
  match t with
  | .mk d ch => FTree.mk { d with perms := updatePerms d.perms upd } ch

mutual

/-- Modelled from the spec: set the given users' permission triples on a
whole subtree (recursive `change_permissions`). -/
def setPermsAll (t : FTree) (upd : List (String × Perm)) : FTree :=
  match t with
  | .mk d ch => FTree.mk { d with perms := updatePerms d.perms upd } (setPermsAllList ch upd)

def setPermsAllList (ts : List FTree) (upd : List (String × Perm)) : List FTree :=
  match ts with
  | [] => []
  | c :: cs => setPermsAll c upd :: setPermsAllList cs upd

end

mutual

/-- Modelled from the spec: `expunge_user_ownership` (§4.3) — every node
owned by `target` is reassigned to its parent's (updated) owner. -/
def expungeAux (parentOwner : String) (t : FTree) (target : String) : FTree :=
  match t with
  | .mk d ch =>
    let newOwner := if d.owner == target then parentOwner else d.owner
    FTree.mk { d with owner := newOwner } (expungeAuxList newOwner ch target)

def expungeAuxList (parentOwner : String) (ts : List FTree) (target : String) : List FTree :=
  match ts with
  | [] => []
  | c :: cs => expungeAux parentOwner c target :: expungeAuxList parentOwner cs target

end

/-- Remove the node addressed by a segment list (not the root). -/
def removeAt (t : FTree) (segs : List String) : Option FTree :=
  match segs.dropLast, segs.getLast? with
  | _, none => none
  | parentSegs, some last =>
    modifyAtO t parentSegs (fun parent =>
      match parent with
      | .mk d ch =>
        match removeChild ch last with
        | some ch' => some (FTree.mk d ch')
        | none => none)

namespace Filesystem

/-- Modelled from the spec: `Filesystem.create_file` (§4.3) — commits the
stream's bytes and hangs a fresh file node under the parent directory;
fails on a missing or non-directory parent or a sibling name collision.
Returns the new tree and the created node record. -/
def create_file (t : FTree) (path_parent file_name usr_handle : String) (content_stream : FileStream) : Option (FTree × NodeData) :=
  let nd : NodeData :=
    { name := file_name, isDir := false, owner := usr_handle,
      fileSize := content_stream.obj_data.length, uploadTime := 0,
      contentRef := some content_stream.obj_oid, perms := [] }
  (modifyAtO t (parsePath path_parent) (fun parent =>
      match parent with
      | .mk d ch =>
        if d.isDir then
          if (findChild ch file_name).isSome then none
          else some (FTree.mk d (ch ++ [FTree.mk nd []]))
        else none)).map (fun t' => (t', nd))

/-- Modelled from the spec: `Filesystem.create_directory` (§4.3). -/
def create_directory (t : FTree) (path_parent file_name usr_handle : String) : Option (FTree × NodeData) :=
  let nd : NodeData :=
    { name := file_name, isDir := true, owner := usr_handle,
      fileSize := 0, uploadTime := 0, contentRef := none, perms := [] }
  (modifyAtO t (parsePath path_parent) (fun parent =>
      match parent with
      | .mk d ch =>
        if d.isDir then
          if (findChild ch file_name).isSome then none
          else some (FTree.mk d (ch ++ [FTree.mk nd []]))
        else none)).map (fun t' => (t', nd))

/-- Modelled from the spec: `Filesystem.remove` (§4.3) — recursively
deletes the addressed subtree; removing the root is disallowed. -/
def remove (t : FTree) (path : String) : Option FTree :=
  removeAt t (parsePath path)

/-- Modelled from the spec: `Filesystem.rename` (§4.3) — updates the
node's name, re-checking sibling uniqueness; renaming the root fails. -/
def rename (t : FTree) (path new_name : String) : Option FTree :=
  match (parsePath path).dropLast, (parsePath path).getLast? with
  | _, none => none
  | parentSegs, some last =>
    modifyAtO t parentSegs (fun parent =>
      match parent with
      | .mk d ch =>
        if (findChild ch new_name).isSome then none
        else
          match renameChild ch last new_name with
          | some ch' => some (FTree.mk d ch')
          | none => none)

/-- Modelled from the spec: `Filesystem.move_with_handle` (§4.3) —
relinks the source subtree under the target parent; moving the root or
moving a node into its own subtree is rejected, as is a missing source,
a non-directory target or a sibling collision.  Returns the new tree and
the moved node's new segment path (the "handle" `copy_reown` uses). -/
def move_with_handle (t : FTree) (source target_parent : String) : Option (FTree × List String) :=
  let src := parsePath source
  let tgt := parsePath target_parent
  if src.isPrefixOf tgt then none
  else
    match resolve t src with
    | none => none
    | some sub =>
      match removeAt t src with
      | none => none
      | some t1 =>
        match modifyAtO t1 tgt (fun parent =>
            match parent with
            | .mk d ch =>
              if d.isDir then
                if (findChild ch sub.nameOf).isSome then none
                else some (FTree.mk d (ch ++ [sub]))
              else none) with
        | some t2 => some (t2, tgt ++ [sub.nameOf])
        | none => none

/-- Modelled from the spec: `Filesystem.copy_with_handle` (§4.3) — hangs
a deep clone of the source subtree under the target parent (in this
functional model the clone is the subtree value itself); fails on a
missing source, a non-directory target or a sibling collision. -/
def copy_with_handle (t : FTree) (source target_parent : String) : Option (FTree × List String) :=
  let src := parsePath source
  let tgt := parsePath target_parent
  match resolve t src with
  | none => none
  | some sub =>
    match modifyAtO t tgt (fun parent =>
        match parent with
        | .mk d ch =>
          if d.isDir then
            if (findChild ch sub.nameOf).isSome then none
            else some (FTree.mk d (ch ++ [sub]))
          else none) with
    | some t2 => some (t2, tgt ++ [sub.nameOf])
    | none => none

/-- Modelled from the spec: `Filesystem.change_ownership` (§4.3) —
recursively reassigns the owner of the addressed subtree. -/
def change_ownership (t : FTree) (path owner : String) : Option FTree :=
  modifyAtO t (parsePath path) (fun sub => some (setOwnerAll sub owner))

/-- Modelled from the spec: `Filesystem.change_permissions` (§4.3) —
sets the permission triples of the listed users on the node, or on the
whole subtree when `recursive`. -/
def change_permissions (t : FTree) (path : String) (permissions : List (String × Perm)) (recursive : Bool) : Option FTree :=
  modifyAtO t (parsePath path)
    (fun sub => some (if recursive then setPermsAll sub permissions else setPermsNode sub permissions))

/-- Modelled from the spec: `Filesystem.expunge_user_ownership` (§4.3) —
every node owned by the handle is reassigned to its parent's owner; the
root (which has no parent) keeps its owner. -/
def expunge_user_ownership (t : FTree) (handle : String) : Option FTree :=
  match t with
  | .mk d ch => some (FTree.mk d (expungeAuxList d.owner ch handle))

/-- Modelled from the spec: `Filesystem.get_content` (§4.3) — the
content reference of the addressed file; fails on directories or
unresolvable paths. -/
def get_content (t : FTree) (path : String) : Option Nat :=
  match resolve t (parsePath path) with
  | some n => if n.dataOf.isDir then none else n.dataOf.contentRef
  | none => none

end Filesystem

/-- One entry of the engine's directory listing.  The tree engine (§4.3)
reports name, size, directory flag, owner and upload time; the
`writable` key is absent (`none`) until the facade attaches it. -/
structure DirEntry where
  file_name : String
  file_size : Nat
  is_dir : Bool
  owner : String
  upload_time : Nat
  writable : Option Bool
deriving DecidableEq, Repr

/-- Modelled from the spec: `Filesystem.list_directory` (§4.3) — the
immediate children of the addressed directory, without any `writable`
attribute; an unresolvable path yields the empty listing. -/
def Filesystem.list_directory (t : FTree) (path : String) : List DirEntry :=
  match resolve t (parsePath path) with
  | some node =>
    node.childrenOf.map (fun c =>
      { file_name := c.dataOf.name, file_size := c.dataOf.fileSize,
        is_dir := c.dataOf.isDir, owner := c.dataOf.owner,
        upload_time := c.dataOf.uploadTime, writable := none })
  | none => []

/-- Modelled from the spec: `copy_reown` (§4.2) — after a copy or a move
the whole resulting subtree is reowned to the acting user; called with a
failed handle (Python `None`) it is a no-op. -/
def FilesystemPermissions.copy_reown (t : FTree) (segs : List String) (h : String) : FTree :=
  match modifyAtO t segs (fun sub => some (setOwnerAll sub h)) with
  | some t' => t'
  | none => t

/-- An observable event of one facade call: a lock acquisition or
release, the evaluation of one permission check, or the delegation to a
tree-engine operation. -/
inductive FSEvent where
  | acq
  | rel
  | permCheck (name : String)
  | engineOp (name : String)
deriving DecidableEq, Repr

/-- The module-level shared state of `bzs/sqlfs/__init__.py`: the live
filesystem tree, the `FilesystemLock`, and the trace of events emitted
so far. -/
structure FSState where
  root : FTree
  lock : Bool
  events : List FSEvent

/-- `FilesystemLock.acquire()`. -/
def acquire (s : FSState) : FSState :=
  { s with lock := true, events := s.events ++ [FSEvent.acq] }

/-- `FilesystemLock.release()`. -/
def release (s : FSState) : FSState :=
  { s with lock := false, events := s.events ++ [FSEvent.rel] }

/-- Record that a permission check was evaluated; Python's
`if user and not check(...)` short-circuits, so nothing is evaluated
when no user was passed. -/
def checkEv (s : FSState) (name : String) (user : Option User) : FSState :=
  match user with
  | some _ => { s with events := s.events ++ [FSEvent.permCheck name] }
  | none => s

/-- The condition of `if user and not p(user): ...` — true exactly when
a user was passed and the check denies them. -/
def denied (user : Option User) (p : String → Bool) : Bool :=
  match user with
  | some u => !(p u.handle)
  | none => false

/-- Record the delegation to one tree-engine operation. -/
def engineEv (s : FSState) (opName : String) : FSState :=
  { s with events := s.events ++ [FSEvent.engineOp opName] }

/-- A Python return value that may be the literal `False`, `None`, or a
real result. -/
inductive PyRet (α : Type) where
  | pyFalse
  | pyNone
  | pyVal (a : α)
deriving DecidableEq, Repr

/-- The value `get_content` hands back: the `EmptyFileStream` sentinel
on denial, or whatever the tree engine produced. -/
inductive ContentResult where
  | emptyFileStream
  | engineResult (r : Option Nat)
deriving DecidableEq, Repr

namespace Sqlfs

/-- `create_file_handle` (facade): acquires the lock, allocates a fresh
`FileStream` from its arguments alone, releases the lock and returns the
stream.  It never consults the tree. -/
def create_file_handle (s0 : FSState) (mode : String) (est_length obj_oid : Nat) (obj_data : List Nat) : FSState × FileStream :=
  let s1 := acquire s0
  let ret_val : FileStream :=
    { mode := mode, est_length := est_length, obj_oid := obj_oid, obj_data := obj_data }
  (release s1, ret_val)

/-- `create_file` (facade): deny unless the parent is writable for the
user; otherwise create under the effective handle (`'public'` when no
user was passed). -/
def create_file (s0 : FSState) (path_parent file_name : String) (content_stream : FileStream) (user : Option User) : FSState × PyRet NodeData :=
  let s1 := acquire s0
  let s2 := checkEv s1 "writable" user
  if denied user (fun h => FilesystemPermissions.writable s2.root path_parent h) then
    (release s2, PyRet.pyFalse)
  else
    let usr_handle := match user with | some u => u.handle | none => "public"
    let s3 := engineEv s2 "create_file"
    match Filesystem.create_file s3.root path_parent file_name usr_handle content_stream with
    | some (root2, nd) => (release { s3 with root := root2 }, PyRet.pyVal nd)
    | none => (release s3, PyRet.pyNone)

/-- `create_directory` (facade): same gating as `create_file`. -/
def create_directory (s0 : FSState) (path_parent file_name : String) (user : Option User) : FSState × PyRet NodeData :=
  let s1 := acquire s0
  let s2 := checkEv s1 "writable" user
  if denied user (fun h => FilesystemPermissions.writable s2.root path_parent h) then
    (release s2, PyRet.pyFalse)
  else
    let usr_handle := match user with | some u => u.handle | none => "public"
    let s3 := engineEv s2 "create_directory"
    match Filesystem.create_directory s3.root path_parent file_name usr_handle with
    | some (root2, nd) => (release { s3 with root := root2 }, PyRet.pyVal nd)
    | none => (release s3, PyRet.pyNone)

/-- `copy` (facade): requires read on the source and write on the target
parent; on success the copied subtree is reowned to the acting user. -/
def copy (s0 : FSState) (source target_parent : String) (user : Option User) : FSState × Bool :=
  let s1 := acquire s0
  let s2 := checkEv s1 "readable" user
  if denied user (fun h => FilesystemPermissions.readable s2.root source h) then
    (release s2, false)
  else
    let s3 := checkEv s2 "writable" user
    if denied user (fun h => FilesystemPermissions.writable s3.root target_parent h) then
      (release s3, false)
    else
      let s4 := engineEv s3 "copy_with_handle"
      match Filesystem.copy_with_handle s4.root source target_parent with
      | some (root2, new_segs) =>
        match user with
        | some u =>
          let s5 := engineEv { s4 with root := root2 } "copy_reown"
          (release { s5 with root := FilesystemPermissions.copy_reown s5.root new_segs u.handle }, true)
        | none => (release { s4 with root := root2 }, true)
      | none =>
        match user with
        | some _ => (release (engineEv s4 "copy_reown"), false)
        | none => (release s4, false)

/-- `move` (facade): requires read, full-subtree write and self-write on
the source, and write on the target parent; on success the moved subtree
is reowned to the acting user. -/
def move (s0 : FSState) (source target_parent : String) (user : Option User) : FSState × Bool :=
  let s1 := acquire s0
  let s2 := checkEv s1 "readable" user
  if denied user (fun h => FilesystemPermissions.readable s2.root source h) then
    (release s2, false)
  else
    let s3 := checkEv s2 "writable_all" user
    if denied user (fun h => FilesystemPermissions.writable_all s3.root source h) then
      (release s3, false)
    else
      let s4 := checkEv s3 "writable_self" user
      if denied user (fun h => FilesystemPermissions.writable_self s4.root source h) then
        (release s4, false)
      else
        let s5 := checkEv s4 "writable" user
        if denied user (fun h => FilesystemPermissions.writable s5.root target_parent h) then
          (release s5, false)
        else
          let s6 := engineEv s5 "move_with_handle"
          match Filesystem.move_with_handle s6.root source target_parent with
          | some (root2, new_segs) =>
            match user with
            | some u =>
              let s7 := engineEv { s6 with root := root2 } "copy_reown"
              (release { s7 with root := FilesystemPermissions.copy_reown s7.root new_segs u.handle }, true)
            | none => (release { s6 with root := root2 }, true)
          | none =>
            match user with
            | some _ => (release (engineEv s6 "copy_reown"), false)
            | none => (release s6, false)

/-- `remove` (facade): requires read access, self-write and full-subtree
write on the path before delegating to the engine's recursive delete. -/
def remove (s0 : FSState) (path : String) (user : Option User) : FSState × PyRet Unit :=
  let s1 := acquire s0
  let s2 := checkEv s1 "readable" user
  if denied user (fun h => FilesystemPermissions.readable s2.root path h) then
    (release s2, PyRet.pyFalse)
  else
    let s3 := checkEv s2 "writable_self" user
    if denied user (fun h => FilesystemPermissions.writable_self s3.root path h) then
      (release s3, PyRet.pyFalse)
    else
      let s4 := checkEv s3 "writable_all" user
      if denied user (fun h => FilesystemPermissions.writable_all s4.root path h) then
        (release s4, PyRet.pyFalse)
      else
        let s5 := engineEv s4 "remove"
        match Filesystem.remove s5.root path with
        | some root2 => (release { s5 with root := root2 }, PyRet.pyVal ())
        | none => (release s5, PyRet.pyNone)

/-- `rename` (facade): requires read-and-write plus self-write. -/
def rename (s0 : FSState) (path file_name : String) (user : Option User) : FSState × PyRet Unit :=
  let s1 := acquire s0
  let s2 := checkEv s1 "read_writable" user
  if denied user (fun h => FilesystemPermissions.read_writable s2.root path h) then
    (release s2, PyRet.pyFalse)
  else
    let s3 := checkEv s2 "writable_self" user
    if denied user (fun h => FilesystemPermissions.writable_self s3.root path h) then
      (release s3, PyRet.pyFalse)
    else
      let s4 := engineEv s3 "rename"
      match Filesystem.rename s4.root path file_name with
      | some root2 => (release { s4 with root := root2 }, PyRet.pyVal ())
      | none => (release s4, PyRet.pyNone)

/-- `change_ownership` (facade): requires read-and-write on the full
subtree plus self-write. -/
def change_ownership (s0 : FSState) (path owner : String) (user : Option User) : FSState × PyRet Unit :=
  let s1 := acquire s0
  let s2 := checkEv s1 "read_writable_all" user
  if denied user (fun h => FilesystemPermissions.read_writable_all s2.root path h) then
    (release s2, PyRet.pyFalse)
  else
    let s3 := checkEv s2 "writable_self" user
    if denied user (fun h => FilesystemPermissions.writable_self s3.root path h) then
      (release s3, PyRet.pyFalse)
    else
      let s4 := engineEv s3 "change_ownership"
      match Filesystem.change_ownership s4.root path owner with
      | some root2 => (release { s4 with root := root2 }, PyRet.pyVal ())
      | none => (release s4, PyRet.pyNone)

/-- `change_permissions` (facade): same gating as `change_ownership`. -/
def change_permissions (s0 : FSState) (path : String) (permissions : List (String × Perm)) (recursive : Bool) (user : Option User) : FSState × PyRet Unit :=
  let s1 := acquire s0
  let s2 := checkEv s1 "read_writable_all" user
  if denied user (fun h => FilesystemPermissions.read_writable_all s2.root path h) then
    (release s2, PyRet.pyFalse)
  else
    let s3 := checkEv s2 "writable_self" user
    if denied user (fun h => FilesystemPermissions.writable_self s3.root path h) then
      (release s3, PyRet.pyFalse)
    else
      let s4 := engineEv s3 "change_permissions"
      match Filesystem.change_permissions s4.root path permissions recursive with
      | some root2 => (release { s4 with root := root2 }, PyRet.pyVal ())
      | none => (release s4, PyRet.pyNone)

/-- `expunge_user_ownership` (facade): system-only, no user gating. -/
def expunge_user_ownership (s0 : FSState) (handle : String) : FSState × PyRet Unit :=
  let s1 := acquire s0
  let s2 := engineEv s1 "expunge_user_ownership"
  match Filesystem.expunge_user_ownership s2.root handle with
  | some root2 => (release { s2 with root := root2 }, PyRet.pyVal ())
  | none => (release s2, PyRet.pyNone)

/-- The body of `list_directory`'s loop over the engine's listing: a
user-invisible entry is skipped; a visible entry gets its `writable`
key set; without a user every entry passes through untouched. -/
def listLoop (root : FTree) (path : String) (user : Option User) : List DirEntry → List DirEntry
  | [] => []
  | item :: rest =>
    match user with
    | some u =>
      if !(FilesystemPermissions.readable_parent root item.file_name u.handle path) then
        listLoop root path user rest
      else
        { item with writable := some (FilesystemPermissions.writable_self_parent root item.file_name u.handle path) }
          :: listLoop root path user rest
    | none => item :: listLoop root path user rest

/-- `list_directory` (facade): list the directory under the lock, then
filter and annotate entries by the caller's permissions. -/
def list_directory (s0 : FSState) (path : String) (user : Option User) : FSState × List DirEntry :=
  let s1 := acquire s0
  let s2 := engineEv s1 "list_directory"
  let fil_ls := Filesystem.list_directory s2.root path
  (release s2, listLoop s2.root path user fil_ls)

/-- `get_content` (facade): on denial return the `EmptyFileStream`
sentinel instead of failing; otherwise delegate to the engine. -/
def get_content (s0 : FSState) (path : String) (user : Option User) : FSState × ContentResult :=
  let s1 := acquire s0
  let s2 := checkEv s1 "readable" user
  if denied user (fun h => FilesystemPermissions.readable s2.root path h) then
    (release s2, ContentResult.emptyFileStream)
  else
    let s3 := engineEv s2 "get_content"
    (release s3, ContentResult.engineResult (Filesystem.get_content s3.root path))

/-- `get_file_name` (source, verbatim): split on `'/'`, remove the first
empty segment — Python's `list.remove('')` raises `ValueError` (here:
`none`) when no empty segment exists — prepend `''` and take the last
element. -/
def get_file_name (path : String) : Option String :=
  let parts := pySplit path
  if "" ∈ parts then
    let parts2 := parts.erase ""
    let parts3 := [""] ++ parts2
    some (parts3.getLastD "")
  else none

/-- `readable` (facade probe): deny only when a user was passed and the
permission engine denies; no mutation. -/
def readable (s0 : FSState) (path : String) (user : Option User) : FSState × Bool :=
  let s1 := acquire s0
  let s2 := checkEv s1 "readable" user
  if denied user (fun h => FilesystemPermissions.readable s2.root path h) then
    (release s2, false)
  else (release s2, true)

/-- `writable` (facade probe). -/
def writable (s0 : FSState) (path : String) (user : Option User) : FSState × Bool :=
  let s1 := acquire s0
  let s2 := checkEv s1 "writable" user
  if denied user (fun h => FilesystemPermissions.writable s2.root path h) then
    (release s2, false)
  else (release s2, true)

/-- `writable_self` (facade probe). -/
def writable_self (s0 : FSState) (path : String) (user : Option User) : FSState × Bool :=
  let s1 := acquire s0
  let s2 := checkEv s1 "writable_self" user
  if denied user (fun h => FilesystemPermissions.writable_self s2.root path h) then
    (release s2, false)
  else (release s2, true)

end Sqlfs

/-- True of events other than lock acquisition/release. -/
def notLockEv : FSEvent → Bool
  | FSEvent.acq => false
  | FSEvent.rel => false
  | _ => true

/-- The tail of a balanced critical section: zero or more non-lock
events followed by exactly one release. -/
def midRel : List FSEvent → Bool
  | [] => false
  | [e] => match e with | FSEvent.rel => true | _ => false
  | e :: rest => notLockEv e && midRel rest

/-- A well-formed critical section: one acquisition, then non-lock
events, then one release. -/
def wellLocked : List FSEvent → Bool
  | FSEvent.acq :: rest => midRel rest
  | _ => false

/-- True when no tree-engine delegation occurs in the event list. -/
def noEngineOps (l : List FSEvent) : Bool :=
  l.all (fun e => match e with | FSEvent.engineOp _ => false | _ => true)

/-- Full grant for one user. -/
def permFull : Perm := ⟨true, true, true⟩

/-- Read-only grant (no write): makes `writable_self` fail on the node. -/
def permReadOnly : Perm := ⟨true, false, true⟩

def userU1 : User := ⟨"u1"⟩

def userU2 : User := ⟨"u2"⟩

/-- Fixture: file `x` under `d`, granted to `u1` read-only. -/
def fileX : FTree :=
  FTree.mk
    { name := "x", isDir := false, owner := "u1", fileSize := 3,
      uploadTime := 0, contentRef := some 7, perms := [("u1", permReadOnly)] } []

/-- Fixture: directory `d`, fully granted to `u1`, containing `x`. -/
def dirD : FTree :=
  FTree.mk
    { name := "d", isDir := true, owner := "u1", fileSize := 0,
      uploadTime := 0, contentRef := none, perms := [("u1", permFull)] } [fileX]

/-- Fixture: empty directory `e`, fully granted to `u1`. -/
def dirE : FTree :=
  FTree.mk
    { name := "e", isDir := true, owner := "u1", fileSize := 0,
      uploadTime := 0, contentRef := none, perms := [("u1", permFull)] } []

/-- Fixture: file `a`, fully granted to `u1`. -/
def fileA : FTree :=
  FTree.mk
    { name := "a", isDir := false, owner := "u1", fileSize := 5,
      uploadTime := 0, contentRef := some 9, perms := [("u1", permFull)] } []

/-- Fixture root: grants everything to `u1` and nothing to `u2`. -/
def rootT : FTree :=
  FTree.mk
    { name := "", isDir := true, owner := "public", fileSize := 0,
      uploadTime := 0, contentRef := none, perms := [("u1", permFull)] }
    [dirD, dirE, fileA]

/-- Fixture state: fixture tree, lock free, empty trace. -/
def fix1 : FSState := ⟨rootT, false, []⟩

theorem Filesystem.create_file_owner {t : FTree} {p n h : String} {st : FileStream}
    {t' : FTree} {nd : NodeData}
    (he : Filesystem.create_file t p n h st = some (t', nd)) : nd.owner = h := by
  simp only [Filesystem.create_file, Option.map_eq_some'] at he
  obtain ⟨a, -, h2⟩ := he
  cases h2
  rfl

theorem Filesystem.create_directory_owner {t : FTree} {p n h : String}
    {t' : FTree} {nd : NodeData}
    (he : Filesystem.create_directory t p n h = some (t', nd)) : nd.owner = h := by
  simp only [Filesystem.create_directory, Option.map_eq_some'] at he
  obtain ⟨a, -, h2⟩ := he
  cases h2
  rfl

/-- Claim C1: `create_file_handle(mode, est_length, obj_oid, obj_data)` always
succeeds: it returns the freshly allocated stream built from its
arguments alone (so it reads nothing from the tree), leaves the
filesystem tree untouched, and its critical section contains no
tree-engine delegation. -/
theorem create_file_handle_pure_allocation :
    ∀ (s : FSState) (mode : String) (est_length obj_oid : Nat) (obj_data : List Nat),
      (Sqlfs.create_file_handle s mode est_length obj_oid obj_data).2 =
        { mode := mode, est_length := est_length, obj_oid := obj_oid, obj_data := obj_data } ∧
      (Sqlfs.create_file_handle s mode est_length obj_oid obj_data).1.root = s.root ∧
      (Sqlfs.create_file_handle s mode est_length obj_oid obj_data).1.events =
        s.events ++ [FSEvent.acq, FSEvent.rel] := by
  intro s mode el oid od
  refine ⟨rfl, rfl, ?_⟩
  simp [Sqlfs.create_file_handle, acquire, release]

/-- Claim C3: whenever a (non-`None`) user is denied read access to a path,
`get_content` returns the `EmptyFileStream` sentinel — a normal return,
not an error — and leaves the tree unchanged. -/
theorem get_content_denied_returns_empty_sentinel :
    ∀ (s : FSState) (path : String) (u : User),
      FilesystemPermissions.readable s.root path u.handle = false →
      (Sqlfs.get_content s path (some u)).2 = ContentResult.emptyFileStream ∧
      (Sqlfs.get_content s path (some u)).1.root = s.root := by
  intro s path u hr
  simp [Sqlfs.get_content, acquire, checkEv, denied, release, hr]

theorem get_content_denied_returns_empty_sentinel_witness :
    (Sqlfs.get_content fix1 "/a" (some userU2)).2 = ContentResult.emptyFileStream ∧
    (Sqlfs.get_content fix1 "/a" (some userU2)).1.root = fix1.root :=
  get_content_denied_returns_empty_sentinel fix1 "/a" userU2 (by decide)

/-- Claim C9, counterexample: on the bare name `"a"` — a slash-delimited
path string with no empty segment — the source's
`path.remove('')` raises `ValueError`, so `get_file_name` fails
instead of returning the final segment. -/
theorem get_file_name_bare_name_value_error :
    Sqlfs.get_file_name "a" = none := by decide

/-- Claim C9, amended: `get_file_name` succeeds exactly on path strings whose
slash-split contains an empty segment, and on every path that begins
with a slash it returns the final segment of the split; on other
strings (such as `"a"` or `"a/b"`) it raises `ValueError`. -/
theorem get_file_name_final_segment :
    ∀ path : String,
      ((Sqlfs.get_file_name path).isSome ↔ "" ∈ pySplit path) ∧
      ((pySplit path).head? = some "" →
        Sqlfs.get_file_name path = some ((pySplit path).getLastD "")) := by
  intro path
  constructor
  · by_cases h : "" ∈ pySplit path <;> simp [Sqlfs.get_file_name, h]
  · intro hh
    cases hp : pySplit path with
    | nil => rw [hp] at hh; simp at hh
    | cons a rest =>
      rw [hp] at hh
      simp at hh
      subst hh
      simp [Sqlfs.get_file_name, hp, List.erase_cons_head]

theorem get_file_name_final_segment_witness :
    Sqlfs.get_file_name "/a/b" = some ((pySplit "/a/b").getLastD "") :=
  (get_file_name_final_segment "/a/b").2 (by decide)

/-- Claim C10: a `create_file` or `create_directory` call with `user=None`
(the system caller) that returns a created node has set that node's
owner to the literal handle `'public'`. -/
theorem create_with_no_user_owner_public :
    (∀ (s : FSState) (p n : String) (st : FileStream) (nd : NodeData),
        (Sqlfs.create_file s p n st none).2 = PyRet.pyVal nd → nd.owner = "public") ∧
    (∀ (s : FSState) (p n : String) (nd : NodeData),
        (Sqlfs.create_directory s p n none).2 = PyRet.pyVal nd → nd.owner = "public") := by
  constructor
  · intro s p n st nd hret
    unfold Sqlfs.create_file at hret
    simp only [denied, checkEv, acquire, engineEv, release, Bool.false_eq_true, if_false] at hret
    rcases hC : Filesystem.create_file s.root p n "public" st with _ | ⟨t2, nd2⟩ <;>
      rw [hC] at hret <;> simp at hret
    rw [← hret]
    exact Filesystem.create_file_owner hC
  · intro s p n nd hret
    unfold Sqlfs.create_directory at hret
    simp only [denied, checkEv, acquire, engineEv, release, Bool.false_eq_true, if_false] at hret
    rcases hC : Filesystem.create_directory s.root p n "public" with _ | ⟨t2, nd2⟩ <;>
      rw [hC] at hret <;> simp at hret
    rw [← hret]
    exact Filesystem.create_directory_owner hC

def stream0 : FileStream := ⟨"write", 10, 3, [1, 2]⟩

def nd0 : NodeData :=
  { name := "n", isDir := false, owner := "public", fileSize := 2,
    uploadTime := 0, contentRef := some 3, perms := [] }

theorem create_with_no_user_owner_public_witness : nd0.owner = "public" :=
  create_with_no_user_owner_public.1 fix1 "/e" "n" stream0 nd0 (by decide)

theorem subtreeAllWSList_find {pp : Bool} {h n : String} :
    ∀ {ch : List FTree} {c : FTree},
      subtreeAllWSList pp ch h = true → findChild ch n = some c →
      subtreeAllWS pp c h = true := by
  intro ch
  induction ch with
  | nil => intro c _ hf; simp [findChild] at hf
  | cons a cs ih =>
    intro c hall hf
    simp only [subtreeAllWSList, Bool.and_eq_true] at hall
    rw [findChild] at hf
    by_cases hn : (a.nameOf == n) = true
    · rw [if_pos hn] at hf
      cases hf
      exact hall.1
    · rw [if_neg hn] at hf
      exact ih hall.2 hf

theorem subtreeAllWS_ws :
    ∀ (q : List String) (pp : Bool) (t : FTree) (h : String),
      subtreeAllWS pp t h = true → (resolve t q).isSome = true →
      writableSelfAux pp t q h = true := by
  intro q
  induction q with
  | nil =>
    intro pp t h hall _
    cases t with
    | mk d ch =>
      simp only [subtreeAllWS, Bool.and_eq_true] at hall
      simp only [writableSelfAux, FTree.dataOf, Bool.and_eq_true]
      exact ⟨hall.1.1, hall.1.2⟩
  | cons n rest ih =>
    intro pp t h hall hres
    cases t with
    | mk d ch =>
      simp only [writableSelfAux, FTree.dataOf, FTree.childrenOf]
      simp only [resolve, FTree.childrenOf] at hres
      cases hf : findChild ch n with
      | none => rw [hf] at hres; simp at hres
      | some c =>
        rw [hf] at hres
        simp only [subtreeAllWS, Bool.and_eq_true] at hall
        exact ih (lookupPerm d.perms h).propagate c h (subtreeAllWSList_find hall.2 hf) hres

theorem writableAllAux_descendant :
    ∀ (segs : List String) (pp : Bool) (t : FTree) (h : String) (q : List String),
      writableAllAux pp t segs h = true → (resolve t (segs ++ q)).isSome = true →
      writableSelfAux pp t (segs ++ q) h = true := by
  intro segs
  induction segs with
  | nil =>
    intro pp t h q hall hres
    exact subtreeAllWS_ws q pp t h (by simpa [writableAllAux] using hall) hres
  | cons n rest ih =>
    intro pp t h q hall hres
    simp only [writableAllAux] at hall
    simp only [List.cons_append] at hres ⊢
    simp only [writableSelfAux]
    simp only [resolve] at hres
    cases hf : findChild t.childrenOf n with
    | none => rw [hf] at hall; simp at hall
    | some c =>
      rw [hf] at hall hres
      exact ih (lookupPerm t.dataOf.perms h).propagate c h q hall hres

theorem create_file_denied (s : FSState) (p n : String) (st : FileStream) (u : User)
    (hd : FilesystemPermissions.writable s.root p u.handle = false) :
    (Sqlfs.create_file s p n st (some u)).2 = PyRet.pyFalse ∧
    (Sqlfs.create_file s p n st (some u)).1.root = s.root ∧
    noEngineOps ((Sqlfs.create_file s p n st (some u)).1.events.drop s.events.length) = true := by
  simp [Sqlfs.create_file, acquire, checkEv, denied, engineEv, release, hd,
    noEngineOps, List.drop_left]

theorem create_directory_denied (s : FSState) (p n : String) (u : User)
    (hd : FilesystemPermissions.writable s.root p u.handle = false) :
    (Sqlfs.create_directory s p n (some u)).2 = PyRet.pyFalse ∧
    (Sqlfs.create_directory s p n (some u)).1.root = s.root ∧
    noEngineOps ((Sqlfs.create_directory s p n (some u)).1.events.drop s.events.length) = true := by
  simp [Sqlfs.create_directory, acquire, checkEv, denied, engineEv, release, hd,
    noEngineOps, List.drop_left]

theorem copy_denied (s : FSState) (src tgt : String) (u : User)
    (hd : (FilesystemPermissions.readable s.root src u.handle &&
           FilesystemPermissions.writable s.root tgt u.handle) = false) :
    (Sqlfs.copy s src tgt (some u)).2 = false ∧
    (Sqlfs.copy s src tgt (some u)).1.root = s.root ∧
    noEngineOps ((Sqlfs.copy s src tgt (some u)).1.events.drop s.events.length) = true := by
  by_cases h1 : FilesystemPermissions.readable s.root src u.handle = true
  · have h2 : FilesystemPermissions.writable s.root tgt u.handle = false := by
      rw [h1] at hd; simpa using hd
    simp [Sqlfs.copy, acquire, checkEv, denied, engineEv, release, h1, h2,
      noEngineOps, List.drop_left]
  · rw [Bool.not_eq_true] at h1
    simp [Sqlfs.copy, acquire, checkEv, denied, engineEv, release, h1,
      noEngineOps, List.drop_left]

theorem move_denied (s : FSState) (src tgt : String) (u : User)
    (hd : (FilesystemPermissions.readable s.root src u.handle &&
           (FilesystemPermissions.writable_all s.root src u.handle &&
            (FilesystemPermissions.writable_self s.root src u.handle &&
             FilesystemPermissions.writable s.root tgt u.handle))) = false) :
    (Sqlfs.move s src tgt (some u)).2 = false ∧
    (Sqlfs.move s src tgt (some u)).1.root = s.root ∧
    noEngineOps ((Sqlfs.move s src tgt (some u)).1.events.drop s.events.length) = true := by
  by_cases h1 : FilesystemPermissions.readable s.root src u.handle = true
  · by_cases h2 : FilesystemPermissions.writable_all s.root src u.handle = true
    · by_cases h3 : FilesystemPermissions.writable_self s.root src u.handle = true
      · have h4 : FilesystemPermissions.writable s.root tgt u.handle = false := by
          rw [h1, h2, h3] at hd; simpa using hd
        simp [Sqlfs.move, acquire, checkEv, denied, engineEv, release, h1, h2, h3, h4,
          noEngineOps, List.drop_left]
      · rw [Bool.not_eq_true] at h3
        simp [Sqlfs.move, acquire, checkEv, denied, engineEv, release, h1, h2, h3,
          noEngineOps, List.drop_left]
    · rw [Bool.not_eq_true] at h2
      simp [Sqlfs.move, acquire, checkEv, denied, engineEv, release, h1, h2,
        noEngineOps, List.drop_left]
  · rw [Bool.not_eq_true] at h1
    simp [Sqlfs.move, acquire, checkEv, denied, engineEv, release, h1,
      noEngineOps, List.drop_left]

theorem remove_denied (s : FSState) (path : String) (u : User)
    (hd : (FilesystemPermissions.readable s.root path u.handle &&
           (FilesystemPermissions.writable_self s.root path u.handle &&
            FilesystemPermissions.writable_all s.root path u.handle)) = false) :
    (Sqlfs.remove s path (some u)).2 = PyRet.pyFalse ∧
    (Sqlfs.remove s path (some u)).1.root = s.root ∧
    noEngineOps ((Sqlfs.remove s path (some u)).1.events.drop s.events.length) = true := by
  by_cases h1 : FilesystemPermissions.readable s.root path u.handle = true
  · by_cases h2 : FilesystemPermissions.writable_self s.root path u.handle = true
    · have h3 : FilesystemPermissions.writable_all s.root path u.handle = false := by
        rw [h1, h2] at hd; simpa using hd
      simp [Sqlfs.remove, acquire, checkEv, denied, engineEv, release, h1, h2, h3,
        noEngineOps, List.drop_left]
    · rw [Bool.not_eq_true] at h2
      simp [Sqlfs.remove, acquire, checkEv, denied, engineEv, release, h1, h2,
        noEngineOps, List.drop_left]
  · rw [Bool.not_eq_true] at h1
    simp [Sqlfs.remove, acquire, checkEv, denied, engineEv, release, h1,
      noEngineOps, List.drop_left]

theorem rename_denied (s : FSState) (path n : String) (u : User)
    (hd : (FilesystemPermissions.read_writable s.root path u.handle &&
           FilesystemPermissions.writable_self s.root path u.handle) = false) :
    (Sqlfs.rename s path n (some u)).2 = PyRet.pyFalse ∧
    (Sqlfs.rename s path n (some u)).1.root = s.root ∧
    noEngineOps ((Sqlfs.rename s path n (some u)).1.events.drop s.events.length) = true := by
  by_cases h1 : FilesystemPermissions.read_writable s.root path u.handle = true
  · have h2 : FilesystemPermissions.writable_self s.root path u.handle = false := by
      rw [h1] at hd; simpa using hd
    simp [Sqlfs.rename, acquire, checkEv, denied, engineEv, release, h1, h2,
      noEngineOps, List.drop_left]
  · rw [Bool.not_eq_true] at h1
    simp [Sqlfs.rename, acquire, checkEv, denied, engineEv, release, h1,
      noEngineOps, List.drop_left]

theorem change_ownership_denied (s : FSState) (path o : String) (u : User)
    (hd : (FilesystemPermissions.read_writable_all s.root path u.handle &&
           FilesystemPermissions.writable_self s.root path u.handle) = false) :
    (Sqlfs.change_ownership s path o (some u)).2 = PyRet.pyFalse ∧
    (Sqlfs.change_ownership s path o (some u)).1.root = s.root ∧
    noEngineOps ((Sqlfs.change_ownership s path o (some u)).1.events.drop s.events.length) = true := by
  by_cases h1 : FilesystemPermissions.read_writable_all s.root path u.handle = true
  · have h2 : FilesystemPermissions.writable_self s.root path u.handle = false := by
      rw [h1] at hd; simpa using hd
    simp [Sqlfs.change_ownership, acquire, checkEv, denied, engineEv, release, h1, h2,
      noEngineOps, List.drop_left]
  · rw [Bool.not_eq_true] at h1
    simp [Sqlfs.change_ownership, acquire, checkEv, denied, engineEv, release, h1,
      noEngineOps, List.drop_left]

theorem change_permissions_denied (s : FSState) (path : String)
    (ps : List (String × Perm)) (r : Bool) (u : User)
    (hd : (FilesystemPermissions.read_writable_all s.root path u.handle &&
           FilesystemPermissions.writable_self s.root path u.handle) = false) :
    (Sqlfs.change_permissions s path ps r (some u)).2 = PyRet.pyFalse ∧
    (Sqlfs.change_permissions s path ps r (some u)).1.root = s.root ∧
    noEngineOps ((Sqlfs.change_permissions s path ps r (some u)).1.events.drop s.events.length) = true := by
  by_cases h1 : FilesystemPermissions.read_writable_all s.root path u.handle = true
  · have h2 : FilesystemPermissions.writable_self s.root path u.handle = false := by
      rw [h1] at hd; simpa using hd
    simp [Sqlfs.change_permissions, acquire, checkEv, denied, engineEv, release, h1, h2,
      noEngineOps, List.drop_left]
  · rw [Bool.not_eq_true] at h1
    simp [Sqlfs.change_permissions, acquire, checkEv, denied, engineEv, release, h1,
      noEngineOps, List.drop_left]

/-- Claim C4: for every mutating facade operation invoked by a real user, when
the operation's permission gate denies the call, the call returns the
denial value (`False`), delegates nothing to the tree engine (no
`engineOp` event is emitted), and leaves the filesystem tree completely
unchanged. -/
theorem denied_mutations_leave_tree_unchanged :
    (∀ (s : FSState) (p n : String) (st : FileStream) (u : User),
      FilesystemPermissions.writable s.root p u.handle = false →
      (Sqlfs.create_file s p n st (some u)).2 = PyRet.pyFalse ∧
      (Sqlfs.create_file s p n st (some u)).1.root = s.root ∧
      noEngineOps ((Sqlfs.create_file s p n st (some u)).1.events.drop s.events.length) = true) ∧
    (∀ (s : FSState) (p n : String) (u : User),
      FilesystemPermissions.writable s.root p u.handle = false →
      (Sqlfs.create_directory s p n (some u)).2 = PyRet.pyFalse ∧
      (Sqlfs.create_directory s p n (some u)).1.root = s.root ∧
      noEngineOps ((Sqlfs.create_directory s p n (some u)).1.events.drop s.events.length) = true) ∧
    (∀ (s : FSState) (src tgt : String) (u : User),
      (FilesystemPermissions.readable s.root src u.handle &&
       FilesystemPermissions.writable s.root tgt u.handle) = false →
      (Sqlfs.copy s src tgt (some u)).2 = false ∧
      (Sqlfs.copy s src tgt (some u)).1.root = s.root ∧
      noEngineOps ((Sqlfs.copy s src tgt (some u)).1.events.drop s.events.length) = true) ∧
    (∀ (s : FSState) (src tgt : String) (u : User),
      (FilesystemPermissions.readable s.root src u.handle &&
       (FilesystemPermissions.writable_all s.root src u.handle &&
        (FilesystemPermissions.writable_self s.root src u.handle &&
         FilesystemPermissions.writable s.root tgt u.handle))) = false →
      (Sqlfs.move s src tgt (some u)).2 = false ∧
      (Sqlfs.move s src tgt (some u)).1.root = s.root ∧
      noEngineOps ((Sqlfs.move s src tgt (some u)).1.events.drop s.events.length) = true) ∧
    (∀ (s : FSState) (path : String) (u : User),
      (FilesystemPermissions.readable s.root path u.handle &&
       (FilesystemPermissions.writable_self s.root path u.handle &&
        FilesystemPermissions.writable_all s.root path u.handle)) = false →
      (Sqlfs.remove s path (some u)).2 = PyRet.pyFalse ∧
      (Sqlfs.remove s path (some u)).1.root = s.root ∧
      noEngineOps ((Sqlfs.remove s path (some u)).1.events.drop s.events.length) = true) ∧
    (∀ (s : FSState) (path n : String) (u : User),
      (FilesystemPermissions.read_writable s.root path u.handle &&
       FilesystemPermissions.writable_self s.root path u.handle) = false →
      (Sqlfs.rename s path n (some u)).2 = PyRet.pyFalse ∧
      (Sqlfs.rename s path n (some u)).1.root = s.root ∧
      noEngineOps ((Sqlfs.rename s path n (some u)).1.events.drop s.events.length) = true) ∧
    (∀ (s : FSState) (path o : String) (u : User),
      (FilesystemPermissions.read_writable_all s.root path u.handle &&
       FilesystemPermissions.writable_self s.root path u.handle) = false →
      (Sqlfs.change_ownership s path o (some u)).2 = PyRet.pyFalse ∧
      (Sqlfs.change_ownership s path o (some u)).1.root = s.root ∧
      noEngineOps ((Sqlfs.change_ownership s path o (some u)).1.events.drop s.events.length) = true) ∧
    (∀ (s : FSState) (path : String) (ps : List (String × Perm)) (r : Bool) (u : User),
      (FilesystemPermissions.read_writable_all s.root path u.handle &&
       FilesystemPermissions.writable_self s.root path u.handle) = false →
      (Sqlfs.change_permissions s path ps r (some u)).2 = PyRet.pyFalse ∧
      (Sqlfs.change_permissions s path ps r (some u)).1.root = s.root ∧
      noEngineOps ((Sqlfs.change_permissions s path ps r (some u)).1.events.drop s.events.length) = true) :=
  ⟨create_file_denied, create_directory_denied, copy_denied, move_denied,
   remove_denied, rename_denied, change_ownership_denied, change_permissions_denied⟩

theorem denied_mutations_leave_tree_unchanged_witness :
    (Sqlfs.create_file fix1 "/" "y" stream0 (some userU2)).2 = PyRet.pyFalse ∧
    (Sqlfs.create_file fix1 "/" "y" stream0 (some userU2)).1.root = fix1.root ∧
    noEngineOps ((Sqlfs.create_file fix1 "/" "y" stream0 (some userU2)).1.events.drop fix1.events.length) = true :=
  denied_mutations_leave_tree_unchanged.1 fix1 "/" "y" stream0 userU2 (by decide)

/-- Claim C5: `remove(path, U)` returns `False` and leaves the tree unchanged
unless the user has read access, self-write and full-subtree write on
the path; in particular a single resolvable descendant (reached by the
extra segments `q`) that denies `writable_self` makes the whole call
fail with the tree untouched. -/
theorem remove_requires_full_subtree_write :
    (∀ (s : FSState) (path : String) (u : User),
      (FilesystemPermissions.readable s.root path u.handle &&
       (FilesystemPermissions.writable_self s.root path u.handle &&
        FilesystemPermissions.writable_all s.root path u.handle)) = false →
      (Sqlfs.remove s path (some u)).2 = PyRet.pyFalse ∧
      (Sqlfs.remove s path (some u)).1.root = s.root) ∧
    (∀ (s : FSState) (path : String) (u : User) (q : List String),
      (resolve s.root (parsePath path ++ q)).isSome = true →
      writable_self_on s.root (parsePath path ++ q) u.handle = false →
      (Sqlfs.remove s path (some u)).2 = PyRet.pyFalse ∧
      (Sqlfs.remove s path (some u)).1.root = s.root) := by
  constructor
  · intro s path u hd
    exact ⟨(remove_denied s path u hd).1, (remove_denied s path u hd).2.1⟩
  · intro s path u q hres hws
    have hwall : FilesystemPermissions.writable_all s.root path u.handle = false := by
      by_cases hw : FilesystemPermissions.writable_all s.root path u.handle = true
      · exfalso
        have := writableAllAux_descendant (parsePath path) true s.root u.handle q hw hres
        rw [writable_self_on] at hws
        rw [this] at hws
        exact Bool.true_eq_false.mp hws
      · rwa [Bool.not_eq_true] at hw
    have hd : (FilesystemPermissions.readable s.root path u.handle &&
         (FilesystemPermissions.writable_self s.root path u.handle &&
          FilesystemPermissions.writable_all s.root path u.handle)) = false := by
      rw [hwall]
      simp
    exact ⟨(remove_denied s path u hd).1, (remove_denied s path u hd).2.1⟩

theorem remove_requires_full_subtree_write_witness :
    (Sqlfs.remove fix1 "/d" (some userU1)).2 = PyRet.pyFalse ∧
    (Sqlfs.remove fix1 "/d" (some userU1)).1.root = fix1.root :=
  remove_requires_full_subtree_write.2 fix1 "/d" userU1 ["x"] (by decide) (by decide)

/-- Claim C6: `move(source, target_parent, U)` delegates to the tree engine's
relink exactly when the user has read, full-subtree write and self-write
on the source and write on the target parent — in that case its boolean
result mirrors the engine's outcome and the trace shows the delegation
under the lock — and otherwise returns `False` with no engine delegation
and the tree unchanged. -/
theorem move_gating :
    ∀ (s : FSState) (source target_parent : String) (u : User),
      ((FilesystemPermissions.readable s.root source u.handle &&
        (FilesystemPermissions.writable_all s.root source u.handle &&
         (FilesystemPermissions.writable_self s.root source u.handle &&
          FilesystemPermissions.writable s.root target_parent u.handle))) = true →
        (Sqlfs.move s source target_parent (some u)).2 =
          (Filesystem.move_with_handle s.root source target_parent).isSome ∧
        (Sqlfs.move s source target_parent (some u)).1.events =
          s.events ++ [FSEvent.acq, FSEvent.permCheck "readable",
            FSEvent.permCheck "writable_all", FSEvent.permCheck "writable_self",
            FSEvent.permCheck "writable", FSEvent.engineOp "move_with_handle",
            FSEvent.engineOp "copy_reown", FSEvent.rel]) ∧
      ((FilesystemPermissions.readable s.root source u.handle &&
        (FilesystemPermissions.writable_all s.root source u.handle &&
         (FilesystemPermissions.writable_self s.root source u.handle &&
          FilesystemPermissions.writable s.root target_parent u.handle))) = false →
        (Sqlfs.move s source target_parent (some u)).2 = false ∧
        (Sqlfs.move s source target_parent (some u)).1.root = s.root ∧
        noEngineOps ((Sqlfs.move s source target_parent (some u)).1.events.drop s.events.length) = true) := by
  intro s source target_parent u
  constructor
  · intro h
    simp only [Bool.and_eq_true] at h
    obtain ⟨h1, h2, h3, h4⟩ := h
    cases hE : Filesystem.move_with_handle s.root source target_parent with
    | none =>
      constructor <;>
        simp [Sqlfs.move, acquire, checkEv, denied, engineEv, release, h1, h2, h3, h4, hE]
    | some pr =>
      cases pr with
      | mk root2 segs =>
        constructor <;>
          simp [Sqlfs.move, acquire, checkEv, denied, engineEv, release, h1, h2, h3, h4, hE]
  · intro h
    exact move_denied s source target_parent u h

theorem move_gating_witness :
    ((Sqlfs.move fix1 "/a" "/e" (some userU1)).2 =
       (Filesystem.move_with_handle fix1.root "/a" "/e").isSome ∧
     (Sqlfs.move fix1 "/a" "/e" (some userU1)).1.events =
       fix1.events ++ [FSEvent.acq, FSEvent.permCheck "readable",
         FSEvent.permCheck "writable_all", FSEvent.permCheck "writable_self",
         FSEvent.permCheck "writable", FSEvent.engineOp "move_with_handle",
         FSEvent.engineOp "copy_reown", FSEvent.rel]) ∧
    ((Sqlfs.move fix1 "/d" "/e" (some userU1)).2 = false ∧
     (Sqlfs.move fix1 "/d" "/e" (some userU1)).1.root = fix1.root ∧
     noEngineOps ((Sqlfs.move fix1 "/d" "/e" (some userU1)).1.events.drop fix1.events.length) = true) :=
  ⟨(move_gating fix1 "/a" "/e" userU1).1 (by decide),
   (move_gating fix1 "/d" "/e" userU1).2 (by decide)⟩

theorem listLoop_none (root : FTree) (path : String) :
    ∀ items, Sqlfs.listLoop root path none items = items := by
  intro items
  induction items with
  | nil => rfl
  | cons a rest ih => simp [Sqlfs.listLoop, ih]

theorem listLoop_some (root : FTree) (path : String) (u : User) :
    ∀ items, Sqlfs.listLoop root path (some u) items =
      (items.filter
        (fun i => FilesystemPermissions.readable_parent root i.file_name u.handle path)).map
        (fun i =>
          { i with
            writable := some (FilesystemPermissions.writable_self_parent root i.file_name u.handle path) }) := by
  intro items
  induction items with
  | nil => rfl
  | cons a rest ih =>
    by_cases hr : FilesystemPermissions.readable_parent root a.file_name u.handle path = true
    · simp [Sqlfs.listLoop, hr, ih, List.filter_cons]
    · rw [Bool.not_eq_true] at hr
      simp [Sqlfs.listLoop, hr, ih, List.filter_cons]

/-- Claim C7: called with `user=None`, every facade operation evaluates no
permission check and delegates unconditionally to the tree engine (its
trace is exactly acquire, one engine delegation, release), and the pure
probes `readable`, `writable` and `writable_self` answer `true` for
every path — existing or not. -/
theorem none_user_bypasses_checks :
    (∀ (s : FSState) (p n : String) (st : FileStream),
      (Sqlfs.create_file s p n st none).1.events =
        s.events ++ [FSEvent.acq, FSEvent.engineOp "create_file", FSEvent.rel]) ∧
    (∀ (s : FSState) (p n : String),
      (Sqlfs.create_directory s p n none).1.events =
        s.events ++ [FSEvent.acq, FSEvent.engineOp "create_directory", FSEvent.rel]) ∧
    (∀ (s : FSState) (src tgt : String),
      (Sqlfs.copy s src tgt none).1.events =
        s.events ++ [FSEvent.acq, FSEvent.engineOp "copy_with_handle", FSEvent.rel]) ∧
    (∀ (s : FSState) (src tgt : String),
      (Sqlfs.move s src tgt none).1.events =
        s.events ++ [FSEvent.acq, FSEvent.engineOp "move_with_handle", FSEvent.rel]) ∧
    (∀ (s : FSState) (path : String),
      (Sqlfs.remove s path none).1.events =
        s.events ++ [FSEvent.acq, FSEvent.engineOp "remove", FSEvent.rel]) ∧
    (∀ (s : FSState) (path n : String),
      (Sqlfs.rename s path n none).1.events =
        s.events ++ [FSEvent.acq, FSEvent.engineOp "rename", FSEvent.rel]) ∧
    (∀ (s : FSState) (path o : String),
      (Sqlfs.change_ownership s path o none).1.events =
        s.events ++ [FSEvent.acq, FSEvent.engineOp "change_ownership", FSEvent.rel]) ∧
    (∀ (s : FSState) (path : String) (ps : List (String × Perm)) (r : Bool),
      (Sqlfs.change_permissions s path ps r none).1.events =
        s.events ++ [FSEvent.acq, FSEvent.engineOp "change_permissions", FSEvent.rel]) ∧
    (∀ (s : FSState) (path : String),
      (Sqlfs.list_directory s path none).1.events =
        s.events ++ [FSEvent.acq, FSEvent.engineOp "list_directory", FSEvent.rel] ∧
      (Sqlfs.list_directory s path none).2 = Filesystem.list_directory s.root path) ∧
    (∀ (s : FSState) (path : String),
      (Sqlfs.get_content s path none).1.events =
        s.events ++ [FSEvent.acq, FSEvent.engineOp "get_content", FSEvent.rel] ∧
      (Sqlfs.get_content s path none).2 =
        ContentResult.engineResult (Filesystem.get_content s.root path)) ∧
    (∀ (s : FSState) (path : String), (Sqlfs.readable s path none).2 = true) ∧
    (∀ (s : FSState) (path : String), (Sqlfs.writable s path none).2 = true) ∧
    (∀ (s : FSState) (path : String), (Sqlfs.writable_self s path none).2 = true) := by
  refine ⟨?_, ?_, ?_, ?_, ?_, ?_, ?_, ?_, ?_, ?_, ?_, ?_, ?_⟩
  · intro s p n st
    unfold Sqlfs.create_file
    simp only [acquire, checkEv, denied, engineEv, release, Bool.false_eq_true, if_false]
    split <;> simp
  · intro s p n
    unfold Sqlfs.create_directory
    simp only [acquire, checkEv, denied, engineEv, release, Bool.false_eq_true, if_false]
    split <;> simp
  · intro s src tgt
    unfold Sqlfs.copy
    simp only [acquire, checkEv, denied, engineEv, release, Bool.false_eq_true, if_false]
    split <;> simp
  · intro s src tgt
    unfold Sqlfs.move
    simp only [acquire, checkEv, denied, engineEv, release, Bool.false_eq_true, if_false]
    split <;> simp
  · intro s path
    unfold Sqlfs.remove
    simp only [acquire, checkEv, denied, engineEv, release, Bool.false_eq_true, if_false]
    split <;> simp
  · intro s path n
    unfold Sqlfs.rename
    simp only [acquire, checkEv, denied, engineEv, release, Bool.false_eq_true, if_false]
    split <;> simp
  · intro s path o
    unfold Sqlfs.change_ownership
    simp only [acquire, checkEv, denied, engineEv, release, Bool.false_eq_true, if_false]
    split <;> simp
  · intro s path ps r
    unfold Sqlfs.change_permissions
    simp only [acquire, checkEv, denied, engineEv, release, Bool.false_eq_true, if_false]
    split <;> simp
  · intro s path
    constructor
    · simp [Sqlfs.list_directory, acquire, engineEv, release]
    · simp [Sqlfs.list_directory, acquire, engineEv, release, listLoop_none]
  · intro s path
    constructor
    · simp [Sqlfs.get_content, acquire, checkEv, denied, engineEv, release]
    · simp [Sqlfs.get_content, acquire, checkEv, denied, engineEv, release]
  · intro s path
    simp [Sqlfs.readable, acquire, checkEv, denied, release]
  · intro s path
    simp [Sqlfs.writable, acquire, checkEv, denied, release]
  · intro s path
    simp [Sqlfs.writable_self, acquire, checkEv, denied, release]

theorem lockOk_create_file_handle (s : FSState) (mode : String) (est_length obj_oid : Nat) (obj_data : List Nat) :
    (Sqlfs.create_file_handle s mode est_length obj_oid obj_data).1.lock = false ∧
    wellLocked (((Sqlfs.create_file_handle s mode est_length obj_oid obj_data).1.events).drop s.events.length) = true := by
  unfold Sqlfs.create_file_handle
  simp only [acquire, checkEv, denied, engineEv, release, Bool.false_eq_true, if_false]
  constructor <;> simp [wellLocked, midRel, notLockEv, List.drop_left]

theorem lockOk_create_file (s : FSState) (p n : String) (st : FileStream) (user : Option User) :
    (Sqlfs.create_file s p n st user).1.lock = false ∧
    wellLocked (((Sqlfs.create_file s p n st user).1.events).drop s.events.length) = true := by
  cases user <;>
  · unfold Sqlfs.create_file
    simp only [acquire, checkEv, denied, engineEv, release, Bool.false_eq_true, if_false]
    constructor <;> (repeat' split) <;>
      simp [wellLocked, midRel, notLockEv, List.drop_left]

theorem lockOk_create_directory (s : FSState) (p n : String) (user : Option User) :
    (Sqlfs.create_directory s p n user).1.lock = false ∧
    wellLocked (((Sqlfs.create_directory s p n user).1.events).drop s.events.length) = true := by
  cases user <;>
  · unfold Sqlfs.create_directory
    simp only [acquire, checkEv, denied, engineEv, release, Bool.false_eq_true, if_false]
    constructor <;> (repeat' split) <;>
      simp [wellLocked, midRel, notLockEv, List.drop_left]

theorem lockOk_copy (s : FSState) (src tgt : String) (user : Option User) :
    (Sqlfs.copy s src tgt user).1.lock = false ∧
    wellLocked (((Sqlfs.copy s src tgt user).1.events).drop s.events.length) = true := by
  cases user <;>
  · unfold Sqlfs.copy
    simp only [acquire, checkEv, denied, engineEv, release, Bool.false_eq_true, if_false]
    constructor <;> (repeat' split) <;>
      simp [wellLocked, midRel, notLockEv, List.drop_left]

theorem lockOk_move (s : FSState) (src tgt : String) (user : Option User) :
    (Sqlfs.move s src tgt user).1.lock = false ∧
    wellLocked (((Sqlfs.move s src tgt user).1.events).drop s.events.length) = true := by
  cases user <;>
  · unfold Sqlfs.move
    simp only [acquire, checkEv, denied, engineEv, release, Bool.false_eq_true, if_false]
    constructor <;> (repeat' split) <;>
      simp [wellLocked, midRel, notLockEv, List.drop_left]

theorem lockOk_remove (s : FSState) (path : String) (user : Option User) :
    (Sqlfs.remove s path user).1.lock = false ∧
    wellLocked (((Sqlfs.remove s path user).1.events).drop s.events.length) = true := by
  cases user <;>
  · unfold Sqlfs.remove
    simp only [acquire, checkEv, denied, engineEv, release, Bool.false_eq_true, if_false]
    constructor <;> (repeat' split) <;>
      simp [wellLocked, midRel, notLockEv, List.drop_left]

theorem lockOk_rename (s : FSState) (path n : String) (user : Option User) :
    (Sqlfs.rename s path n user).1.lock = false ∧
    wellLocked (((Sqlfs.rename s path n user).1.events).drop s.events.length) = true := by
  cases user <;>
  · unfold Sqlfs.rename
    simp only [acquire, checkEv, denied, engineEv, release, Bool.false_eq_true, if_false]
    constructor <;> (repeat' split) <;>
      simp [wellLocked, midRel, notLockEv, List.drop_left]

theorem lockOk_change_ownership (s : FSState) (path o : String) (user : Option User) :
    (Sqlfs.change_ownership s path o user).1.lock = false ∧
    wellLocked (((Sqlfs.change_ownership s path o user).1.events).drop s.events.length) = true := by
  cases user <;>
  · unfold Sqlfs.change_ownership
    simp only [acquire, checkEv, denied, engineEv, release, Bool.false_eq_true, if_false]
    constructor <;> (repeat' split) <;>
      simp [wellLocked, midRel, notLockEv, List.drop_left]

theorem lockOk_change_permissions (s : FSState) (path : String) (ps : List (String × Perm)) (r : Bool) (user : Option User) :
    (Sqlfs.change_permissions s path ps r user).1.lock = false ∧
    wellLocked (((Sqlfs.change_permissions s path ps r user).1.events).drop s.events.length) = true := by
  cases user <;>
  · unfold Sqlfs.change_permissions
    simp only [acquire, checkEv, denied, engineEv, release, Bool.false_eq_true, if_false]
    constructor <;> (repeat' split) <;>
      simp [wellLocked, midRel, notLockEv, List.drop_left]

theorem lockOk_expunge_user_ownership (s : FSState) (handle : String) :
    (Sqlfs.expunge_user_ownership s handle).1.lock = false ∧
    wellLocked (((Sqlfs.expunge_user_ownership s handle).1.events).drop s.events.length) = true := by
  unfold Sqlfs.expunge_user_ownership
  simp only [acquire, checkEv, denied, engineEv, release, Bool.false_eq_true, if_false]
  constructor <;> (repeat' split) <;>
    simp [wellLocked, midRel, notLockEv, List.drop_left]

theorem lockOk_list_directory (s : FSState) (path : String) (user : Option User) :
    (Sqlfs.list_directory s path user).1.lock = false ∧
    wellLocked (((Sqlfs.list_directory s path user).1.events).drop s.events.length) = true := by
  cases user <;>
  · unfold Sqlfs.list_directory
    simp only [acquire, checkEv, denied, engineEv, release, Bool.false_eq_true, if_false]
    constructor <;> simp [wellLocked, midRel, notLockEv, List.drop_left]

theorem lockOk_get_content (s : FSState) (path : String) (user : Option User) :
    (Sqlfs.get_content s path user).1.lock = false ∧
    wellLocked (((Sqlfs.get_content s path user).1.events).drop s.events.length) = true := by
  cases user <;>
  · unfold Sqlfs.get_content
    simp only [acquire, checkEv, denied, engineEv, release, Bool.false_eq_true, if_false]
    constructor <;> (repeat' split) <;>
      simp [wellLocked, midRel, notLockEv, List.drop_left]

theorem lockOk_readable (s : FSState) (path : String) (user : Option User) :
    (Sqlfs.readable s path user).1.lock = false ∧
    wellLocked (((Sqlfs.readable s path user).1.events).drop s.events.length) = true := by
  cases user <;>
  · unfold Sqlfs.readable
    simp only [acquire, checkEv, denied, engineEv, release, Bool.false_eq_true, if_false]
    constructor <;> (repeat' split) <;>
      simp [wellLocked, midRel, notLockEv, List.drop_left]

theorem lockOk_writable (s : FSState) (path : String) (user : Option User) :
    (Sqlfs.writable s path user).1.lock = false ∧
    wellLocked (((Sqlfs.writable s path user).1.events).drop s.events.length) = true := by
  cases user <;>
  · unfold Sqlfs.writable
    simp only [acquire, checkEv, denied, engineEv, release, Bool.false_eq_true, if_false]
    constructor <;> (repeat' split) <;>
      simp [wellLocked, midRel, notLockEv, List.drop_left]

theorem lockOk_writable_self (s : FSState) (path : String) (user : Option User) :
    (Sqlfs.writable_self s path user).1.lock = false ∧
    wellLocked (((Sqlfs.writable_self s path user).1.events).drop s.events.length) = true := by
  cases user <;>
  · unfold Sqlfs.writable_self
    simp only [acquire, checkEv, denied, engineEv, release, Bool.false_eq_true, if_false]
    constructor <;> (repeat' split) <;>
      simp [wellLocked, midRel, notLockEv, List.drop_left]

/-- Claim C2: every serialized-facade entry point acquires the single global
lock before any permission evaluation or tree-engine delegation and
releases it on every exit path: whatever the arguments and the
permission outcome, the lock is free again after the call, and the
call's event suffix is exactly one acquisition, then only permission
checks and engine delegations, then one release. -/
theorem facade_lock_discipline :
    (∀ (s : FSState) (mode : String) (est_length obj_oid : Nat) (obj_data : List Nat),
      (Sqlfs.create_file_handle s mode est_length obj_oid obj_data).1.lock = false ∧
      wellLocked (((Sqlfs.create_file_handle s mode est_length obj_oid obj_data).1.events).drop s.events.length) = true) ∧
    (∀ (s : FSState) (p n : String) (st : FileStream) (user : Option User),
      (Sqlfs.create_file s p n st user).1.lock = false ∧
      wellLocked (((Sqlfs.create_file s p n st user).1.events).drop s.events.length) = true) ∧
    (∀ (s : FSState) (p n : String) (user : Option User),
      (Sqlfs.create_directory s p n user).1.lock = false ∧
      wellLocked (((Sqlfs.create_directory s p n user).1.events).drop s.events.length) = true) ∧
    (∀ (s : FSState) (src tgt : String) (user : Option User),
      (Sqlfs.copy s src tgt user).1.lock = false ∧
      wellLocked (((Sqlfs.copy s src tgt user).1.events).drop s.events.length) = true) ∧
    (∀ (s : FSState) (src tgt : String) (user : Option User),
      (Sqlfs.move s src tgt user).1.lock = false ∧
      wellLocked (((Sqlfs.move s src tgt user).1.events).drop s.events.length) = true) ∧
    (∀ (s : FSState) (path : String) (user : Option User),
      (Sqlfs.remove s path user).1.lock = false ∧
      wellLocked (((Sqlfs.remove s path user).1.events).drop s.events.length) = true) ∧
    (∀ (s : FSState) (path n : String) (user : Option User),
      (Sqlfs.rename s path n user).1.lock = false ∧
      wellLocked (((Sqlfs.rename s path n user).1.events).drop s.events.length) = true) ∧
    (∀ (s : FSState) (path o : String) (user : Option User),
      (Sqlfs.change_ownership s path o user).1.lock = false ∧
      wellLocked (((Sqlfs.change_ownership s path o user).1.events).drop s.events.length) = true) ∧
    (∀ (s : FSState) (path : String) (ps : List (String × Perm)) (r : Bool) (user : Option User),
      (Sqlfs.change_permissions s path ps r user).1.lock = false ∧
      wellLocked (((Sqlfs.change_permissions s path ps r user).1.events).drop s.events.length) = true) ∧
    (∀ (s : FSState) (handle : String),
      (Sqlfs.expunge_user_ownership s handle).1.lock = false ∧
      wellLocked (((Sqlfs.expunge_user_ownership s handle).1.events).drop s.events.length) = true) ∧
    (∀ (s : FSState) (path : String) (user : Option User),
      (Sqlfs.list_directory s path user).1.lock = false ∧
      wellLocked (((Sqlfs.list_directory s path user).1.events).drop s.events.length) = true) ∧
    (∀ (s : FSState) (path : String) (user : Option User),
      (Sqlfs.get_content s path user).1.lock = false ∧
      wellLocked (((Sqlfs.get_content s path user).1.events).drop s.events.length) = true) ∧
    (∀ (s : FSState) (path : String) (user : Option User),
      (Sqlfs.readable s path user).1.lock = false ∧
      wellLocked (((Sqlfs.readable s path user).1.events).drop s.events.length) = true) ∧
    (∀ (s : FSState) (path : String) (user : Option User),
      (Sqlfs.writable s path user).1.lock = false ∧
      wellLocked (((Sqlfs.writable s path user).1.events).drop s.events.length) = true) ∧
    (∀ (s : FSState) (path : String) (user : Option User),
      (Sqlfs.writable_self s path user).1.lock = false ∧
      wellLocked (((Sqlfs.writable_self s path user).1.events).drop s.events.length) = true) :=
  ⟨lockOk_create_file_handle, lockOk_create_file, lockOk_create_directory, lockOk_copy,
   lockOk_move, lockOk_remove, lockOk_rename, lockOk_change_ownership,
   lockOk_change_permissions, lockOk_expunge_user_ownership, lockOk_list_directory,
   lockOk_get_content, lockOk_readable, lockOk_writable, lockOk_writable_self⟩

/-- Claim C8, counterexample: on a state whose root has three readable
children, `list_directory` with `user=None` returns entries that carry
no `writable` flag at all (`none`), although the `user=None`
`writable_self` probe answers `true`; so not every returned entry
carries a `writable` flag equal to the user's `writable_self` when
`user=None`. -/
theorem list_directory_none_user_no_writable_flag :
    (Sqlfs.list_directory fix1 "/" none).2.map DirEntry.writable = [none, none, none] ∧
    (Sqlfs.writable_self fix1 "/d" none).2 = true := by decide

/-- Claim C8, amended: for a real user, `list_directory` omits exactly the
entries the user cannot read and attaches to each remaining entry a
`writable` flag equal to the user's `writable_self` on that entry; with
`user=None` it returns the engine's listing unfiltered and unmodified,
with no `writable` flag attached. -/
theorem list_directory_filter_and_writable :
    (∀ (s : FSState) (path : String) (u : User),
      (Sqlfs.list_directory s path (some u)).2 =
        ((Filesystem.list_directory s.root path).filter
          (fun i => FilesystemPermissions.readable_parent s.root i.file_name u.handle path)).map
          (fun i =>
            { i with
              writable := some (FilesystemPermissions.writable_self_parent s.root i.file_name u.handle path) })) ∧
    (∀ (s : FSState) (path : String),
      (Sqlfs.list_directory s path none).2 = Filesystem.list_directory s.root path) := by
  constructor
  · intro s path u
    simp [Sqlfs.list_directory, acquire, engineEv, release, listLoop_some]
  · intro s path
    simp [Sqlfs.list_directory, acquire, engineEv, release, listLoop_none]
